import Mathlib

/-!
Verification of the Credence bond contract (`contracts/credence_bond`).

This file gives a shallow embedding of the bond ledger and its control
plane: the `IdentityBond` record, the slashing / unslashing engine
(`slashing.rs`), the lifecycle operations (`lib.rs`), the cooldown
mechanism (`cooldown.rs`), the emergency-withdrawal engine
(`emergency.rs`), the slash-history ledger (`slash_history.rs`) and the
attestation subsystem (`lib.rs`).

Conventions of the embedding:
* Soroban `Address`, `String` and `Symbol` values are modelled as `Nat`
  identifiers: the contract only ever compares them for equality.
* Rust `i128` is modelled as `Int`, with the checked operations
  (`checked_add`, `checked_sub`, `checked_mul`) made explicit as
  `Option Int` computations that fail outside the i128 range.
* Rust `u64` is modelled as `Nat` with an explicit `U64_MAX` bound for
  `checked_add` / `saturating_add`.
* A Rust `panic!` is modelled as an error value of the inductive `Err`
  type; every entry point returns `Res α` which is either `ok` or `err`.
* Contract storage is modelled as a `ContractState` record; storage maps
  become association lists with last-write-wins update (`setA`).
* `require_auth()` is a host-level signature check with no effect on
  contract state; it is not modelled.
* Event emission does not change contract state and is not modelled.
-/

namespace Credence

set_option maxRecDepth 8000

/-- Largest value of Rust `i128`. -/
def I128_MAX : Int := 2 ^ 127 - 1

/-- Smallest value of Rust `i128`. -/
def I128_MIN : Int := -(2 ^ 127)

/-- Largest value of Rust `u64`. -/
def U64_MAX : Nat := 2 ^ 64 - 1

/-- Embedded `i128::checked_add`: none exactly when the mathematical sum leaves the
i128 range. -/
def checkedAddI128 (a b : Int) : Option Int :=
  if a + b < I128_MIN ∨ I128_MAX < a + b then none else some (a + b)

/-- Embedded `i128::checked_sub`: none exactly when the mathematical difference
leaves the i128 range. Note that a negative in-range result is `some`. -/
def checkedSubI128 (a b : Int) : Option Int :=
  if a - b < I128_MIN ∨ I128_MAX < a - b then none else some (a - b)

/-- Embedded `i128::checked_mul`: none exactly when the product leaves the i128
range. -/
def checkedMulI128 (a b : Int) : Option Int :=
  if a * b < I128_MIN ∨ I128_MAX < a * b then none else some (a * b)

/-- Embedded `u64::checked_add` on the `Nat` model. -/
def checkedAddU64 (a b : Nat) : Option Nat :=
  if U64_MAX < a + b then none else some (a + b)

/-- Embedded `u64::saturating_add` on the `Nat` model. -/
def saturatingAddU64 (a b : Nat) : Nat :=
  min (a + b) U64_MAX

/-- Error outcomes of contract entry points. Each constructor corresponds
to one `panic!` / `expect` message in the source. -/
inductive Err : Type where
  | notInitialized
  | notAdmin
  | noBond
  | bondNotActive
  | tokenNotSet
  | amountNegative
  | amountNotPositive
  | belowMinimum
  | aboveMaximum
  | durationTooShort
  | durationTooLong
  | endTimestampOverflow
  | arithmeticOverflow
  | insufficientBalance
  | slashedExceedsBonded
  | slashExceedsBond
  | lockupNotElapsed
  | usePostLockupWithdraw
  | cooldownWindowNotElapsed
  | notRollingBond
  | withdrawalAlreadyRequested
  | unauthorizedAttester
  | duplicateAttestation
  | attestationCounterOverflow
  | attestationNotFound
  | notOriginalAttester
  | alreadyRevoked
  | notGovernance
  | emergencyDisabled
  | emergencyConfigNotSet
  | emergencyFeeExceedsAmount
  | emergencyRecordNotFound
  | emergencyRecordIdOverflow
  | feeBpsTooLarge
  | penaltyExceedsAmount
  | notBondHolder
  | amountExceedsAvailable
  | cooldownRequestPending
  | noCooldownRequest
  | cooldownNotElapsed
  | proposalNotFound
  | onlyProposerCanExecute
  | proposalNotApproved
  | notAdminOrGovernor
deriving DecidableEq, Repr

/-- Result of a contract call: the updated value, or the panic that
aborted the call (in which case no storage write persists). -/
inductive Res (α : Type) : Type where
  | ok (a : α)
  | err (e : Err)
deriving DecidableEq, Repr

/-- Embedded `IdentityBond` record from `lib.rs`. The merged source names the last
field both `notice_period` (struct declaration) and
`notice_period_duration` (some use sites); the embedding uses a single
field for that quantity. -/
structure IdentityBond : Type where
  identity : Nat
  bonded_amount : Int
  bond_start : Nat
  bond_duration : Nat
  slashed_amount : Int
  active : Bool
  is_rolling : Bool
  withdrawal_requested_at : Nat
  notice_period : Nat
deriving DecidableEq, Repr

/-- Embedded `Attestation` record from `lib.rs` (the variant stored by
`add_attestation` in the source: no weight field is written there). -/
structure Attestation : Type where
  id : Nat
  attester : Nat
  subject : Nat
  attestation_data : Nat
  timestamp : Nat
  revoked : Bool
deriving DecidableEq, Repr

/-- Embedded `CooldownRequest` record from `lib.rs`. -/
structure CooldownRequest : Type where
  requester : Nat
  amount : Int
  requested_at : Nat
deriving DecidableEq, Repr

/-- Embedded `EmergencyConfig` from `emergency.rs`. -/
structure EmergencyConfig : Type where
  governance : Nat
  treasury : Nat
  emergency_fee_bps : Nat
  enabled : Bool
deriving DecidableEq, Repr

/-- Embedded `EmergencyWithdrawalRecord` from `emergency.rs`. -/
structure EmergencyWithdrawalRecord : Type where
  id : Nat
  identity : Nat
  gross_amount : Int
  fee_amount : Int
  net_amount : Int
  treasury : Nat
  approved_admin : Nat
  approved_governance : Nat
  reason : Nat
  timestamp : Nat
deriving DecidableEq, Repr

/-- Embedded `SlashRecord` from `slash_history.rs`. -/
structure SlashRecord : Type where
  identity : Nat
  slash_amount : Int
  reason : Nat
  timestamp : Nat
  total_slashed_after : Int
deriving DecidableEq, Repr

/-- Modelled from the spec: `governance_approval.rs` is declared in
`lib.rs` but absent from the source tree. A `SlashProposal` per the spec
carries id, amount, proposer, vote tally, and a snapshot of the
quorum-bps threshold and governor roster size; it is consumed one-shot by
execution. -/
structure SlashProposal : Type where
  id : Nat
  amount : Int
  proposed_by : Nat
  approvals : Nat
  quorum_bps : Nat
  governor_count : Nat
  executed : Bool
deriving DecidableEq, Repr

/-- Association-list lookup (storage map `get`). -/
def lookupA {α : Type} : List (Nat × α) → Nat → Option α
  | [], _ => none
  | (k, v) :: rest, key => if k = key then some v else lookupA rest key

/-- Association-list update (storage map `set`, last write wins). -/
def setA {α : Type} : List (Nat × α) → Nat → α → List (Nat × α)
  | [], key, v => [(key, v)]
  | (k, w) :: rest, key, v =>
      if k = key then (key, v) :: rest else (k, w) :: setA rest key v

/-- Association-list removal (storage map `remove`). -/
def removeA {α : Type} : List (Nat × α) → Nat → List (Nat × α)
  | [], _ => []
  | (k, w) :: rest, key =>
      if k = key then removeA rest key else (k, w) :: removeA rest key

/-- Instance storage of the `CredenceBond` contract. One field per storage
key family used by the embedded operations. -/
structure ContractState : Type where
  admin : Option Nat
  token : Option Nat
  bond : Option IdentityBond
  attesters : List Nat
  attestations : List (Nat × Attestation)
  attestationCounter : Nat
  subjectAtts : List (Nat × List Nat)
  dupKeys : List (Nat × Nat × Nat)
  nonces : List (Nat × Nat)
  cooldownReqs : List (Nat × CooldownRequest)
  cooldownPeriod : Nat
  emergencyCfg : Option EmergencyConfig
  emergencyRecords : List (Nat × EmergencyWithdrawalRecord)
  emergencySeq : Nat
  proposals : List (Nat × SlashProposal)
  slashHistory : List (Nat × List SlashRecord)
  feeTreasury : Option Nat
  feeBps : Nat
  earlyTreasury : Nat
  earlyPenaltyBps : Nat
deriving DecidableEq, Repr

/-- The freshly initialized state (`initialize` plus unset storage
defaults). -/
def initState (admin : Nat) : ContractState :=
  { admin := some admin
    token := none
    bond := none
    attesters := []
    attestations := []
    attestationCounter := 0
    subjectAtts := []
    dupKeys := []
    nonces := []
    cooldownReqs := []
    cooldownPeriod := 0
    emergencyCfg := none
    emergencyRecords := []
    emergencySeq := 0
    proposals := []
    slashHistory := []
    feeTreasury := none
    feeBps := 0
    earlyTreasury := 0
    earlyPenaltyBps := 0 }

/-- Embedded `validate_admin` from `slashing.rs` / `require_admin_internal` from
`lib.rs`: the caller must equal the stored admin. -/
def validate_admin (s : ContractState) (caller : Nat) : Res Unit :=
  match s.admin with
  | none => .err .notInitialized
  | some a => if caller = a then .ok () else .err .notAdmin

/-- Embedded `slashing::slash_bond` (slashing.rs lines 92-125): admin check, then
`new_slashed = slashed_amount + amount` with `checked_add`, capped at
`bonded_amount`, persisted. This is the capping slash path used by the
`slash` entry point and by governance execution. -/
def slashing_slash_bond (s : ContractState) (admin : Nat) (amount : Int) :
    Res ContractState :=
  match validate_admin s admin with
  | .err e => .err e
  | .ok _ =>
    match s.bond with
    | none => .err .noBond
    | some bond =>
      match checkedAddI128 bond.slashed_amount amount with
      | none => .err .arithmeticOverflow
      | some new_slashed =>
        let capped :=
          if bond.bonded_amount < new_slashed then bond.bonded_amount
          else new_slashed
        .ok { s with bond := some { bond with slashed_amount := capped } }

/-- Embedded `slashing::unslash_bond` (slashing.rs lines 143-162): admin check,
then `slashed_amount.checked_sub(amount)`. The `checked_sub` only fails
when the difference leaves the i128 range; a negative in-range result is
stored as is. -/
def unslash_bond (s : ContractState) (admin : Nat) (amount : Int) :
    Res ContractState :=
  match validate_admin s admin with
  | .err e => .err e
  | .ok _ =>
    match s.bond with
    | none => .err .noBond
    | some bond =>
      match checkedSubI128 bond.slashed_amount amount with
      | none => .err .arithmeticOverflow
      | some new_slashed =>
        .ok { s with bond := some { bond with slashed_amount := new_slashed } }

/-- Embedded `CredenceBond::slash_bond` (lib.rs lines 1256-1316): the second,
fail-closed slash entry point. Requires an active bond and panics with
"slash exceeds bond" when `slashed_amount + slash_amount` exceeds
`bonded_amount` instead of capping. The addition is an unchecked `+` in
the source; the values in this development stay inside the i128 range. -/
def CredenceBond_slash_bond (s : ContractState) (admin : Nat)
    (slash_amount : Int) : Res (ContractState × Int) :=
  match validate_admin s admin with
  | .err e => .err e
  | .ok _ =>
    match s.bond with
    | none => .err .noBond
    | some bond =>
      if bond.active = false then .err .bondNotActive
      else
        let new_slashed := bond.slashed_amount + slash_amount
        if bond.bonded_amount < new_slashed then .err .slashExceedsBond
        else
          .ok ({ s with bond := some { bond with slashed_amount := new_slashed } },
               new_slashed)

/-- Embedded `slashing::get_available_balance` (slashing.rs lines 173-177). -/
def get_available_balance (bonded_amount slashed_amount : Int) : Option Int :=
  checkedSubI128 bonded_amount slashed_amount

/-- Embedded `slash_history::append_slash_history` (slash_history.rs lines 21-45):
appends one record to the per-identity history and bumps the count. Note
that no entry point in the source ever calls this function. -/
def append_slash_history (s : ContractState) (identity : Nat)
    (slash_amount : Int) (reason : Nat) (total_slashed_after : Int)
    (now : Nat) : ContractState :=
  let record : SlashRecord :=
    { identity := identity
      slash_amount := slash_amount
      reason := reason
      timestamp := now
      total_slashed_after := total_slashed_after }
  let history := (lookupA s.slashHistory identity).getD []
  { s with slashHistory := setA s.slashHistory identity (history ++ [record]) }

/-- Embedded `slash_history::get_slash_history` for one identity. -/
def get_slash_history (s : ContractState) (identity : Nat) : List SlashRecord :=
  (lookupA s.slashHistory identity).getD []

/-- Embedded `validation::MIN_BOND_AMOUNT`. -/
def MIN_BOND_AMOUNT : Int := 1000000

/-- Embedded `validation::MAX_BOND_AMOUNT`. -/
def MAX_BOND_AMOUNT : Int := 100000000000000

/-- Embedded `validation::MIN_BOND_DURATION`. -/
def MIN_BOND_DURATION : Nat := 86400

/-- Embedded `validation::MAX_BOND_DURATION`. -/
def MAX_BOND_DURATION : Nat := 31536000

/-- Embedded `validation::validate_bond_amount` (validation.rs lines 21-33). -/
def validate_bond_amount (amount : Int) : Res Unit :=
  if amount < 0 then .err .amountNegative
  else if amount < MIN_BOND_AMOUNT then .err .belowMinimum
  else if MAX_BOND_AMOUNT < amount then .err .aboveMaximum
  else .ok ()

/-- Embedded `validation::validate_bond_duration` (validation.rs lines 104-111). -/
def validate_bond_duration (duration : Nat) : Res Unit :=
  if duration < MIN_BOND_DURATION then .err .durationTooShort
  else if MAX_BOND_DURATION < duration then .err .durationTooLong
  else .ok ()

/-- Modelled from the spec: `fees.rs` is declared in `lib.rs` but absent
from the source tree. Per spec section 4.3, on bond creation, if a
treasury is configured and `fee_bps > 0`, the fee
`amount * fee_bps / 10000` is deducted before the net amount is stored.
Division is Rust i128 `/`, truncation toward zero. -/
def fees_calculate_fee (s : ContractState) (amount : Int) : Int × Int :=
  if s.feeTreasury.isSome ∧ 0 < s.feeBps then
    let fee := Int.tdiv (amount * (s.feeBps : Int)) 10000
    (fee, amount - fee)
  else (0, amount)

/-- Embedded `create_bond_with_rolling` (lib.rs lines 433-487): rejects negative
amounts, requires the token to be set, checks that
`bond_start + duration` does not overflow u64, deducts the creation fee,
and stores a fresh bond with `slashed_amount = 0`. The collateral
`transfer_from` is an external token call with no effect on this
contract's storage. -/
def create_bond_with_rolling (s : ContractState) (identity : Nat)
    (amount : Int) (duration : Nat) (is_rolling : Bool)
    (notice_period : Nat) (now : Nat) : Res ContractState :=
  if amount < 0 then .err .amountNegative
  else
    match s.token with
    | none => .err .tokenNotSet
    | some _ =>
      match checkedAddU64 now duration with
      | none => .err .endTimestampOverflow
      | some _ =>
        let feeNet := fees_calculate_fee s amount
        let bond : IdentityBond :=
          { identity := identity
            bonded_amount := feeNet.2
            bond_start := now
            bond_duration := duration
            slashed_amount := 0
            active := true
            is_rolling := is_rolling
            withdrawal_requested_at := 0
            notice_period := notice_period }
        .ok { s with bond := some bond }

/-- Embedded `create_bond` (lib.rs lines 409-430): validates the amount and
duration bounds, then delegates to `create_bond_with_rolling`. -/
def create_bond (s : ContractState) (identity : Nat) (amount : Int)
    (duration : Nat) (is_rolling : Bool) (notice_period : Nat)
    (now : Nat) : Res ContractState :=
  match validate_bond_amount amount with
  | .err e => .err e
  | .ok _ =>
    match validate_bond_duration duration with
    | .err e => .err e
    | .ok _ =>
      create_bond_with_rolling s identity amount duration is_rolling
        notice_period now

/-- Embedded `top_up` (lib.rs lines 972-1025): rejects amounts below
`MIN_BOND_AMOUNT`, computes the new bonded amount with `checked_add`,
validates it, and stores it. The merged source contains duplicated
assignment lines; the net effect is `bonded_amount + amount`. -/
def top_up (s : ContractState) (amount : Int) : Res ContractState :=
  if amount < MIN_BOND_AMOUNT then .err .belowMinimum
  else
    match s.bond with
    | none => .err .noBond
    | some bond =>
      match checkedAddI128 bond.bonded_amount amount with
      | none => .err .arithmeticOverflow
      | some new_bonded =>
        match validate_bond_amount new_bonded with
        | .err e => .err e
        | .ok _ =>
          match s.token with
          | none => .err .tokenNotSet
          | some _ =>
            .ok { s with bond := some { bond with bonded_amount := new_bonded } }

/-- Modelled from the spec: `rolling_bond.rs` is declared in `lib.rs` but
absent from the source tree. Per spec section 4.4, a rolling bond may be
withdrawn only after `request_withdrawal` was called and
`now >= withdrawal_requested_at + notice_period`. -/
def can_withdraw_after_notice (now requested_at notice_period : Nat) : Bool :=
  saturatingAddU64 requested_at notice_period ≤ now

/-- The time gate of `withdraw_bond` (lib.rs lines 670-686): lock-up for
non-rolling bonds, requested-plus-notice window for rolling bonds. -/
def withdraw_time_gate (bond : IdentityBond) (now : Nat) : Res Unit :=
  if bond.is_rolling then
    if bond.withdrawal_requested_at = 0 then .err .cooldownWindowNotElapsed
    else if can_withdraw_after_notice now bond.withdrawal_requested_at
        bond.notice_period = false then .err .cooldownWindowNotElapsed
    else .ok ()
  else if now < saturatingAddU64 bond.bond_start bond.bond_duration then
    .err .lockupNotElapsed
  else .ok ()

/-- Embedded `withdraw_bond` (lib.rs lines 662-723): time gate, available-balance
check `amount <= bonded - slashed`, token transfer, then
`bonded_amount - amount` with a clamp of `slashed_amount` down to the new
`bonded_amount` should it exceed it. -/
def withdraw_bond (s : ContractState) (amount : Int) (now : Nat) :
    Res ContractState :=
  match s.bond with
  | none => .err .noBond
  | some bond =>
    match withdraw_time_gate bond now with
    | .err e => .err e
    | .ok _ =>
      match checkedSubI128 bond.bonded_amount bond.slashed_amount with
      | none => .err .slashedExceedsBonded
      | some available =>
        if available < amount then .err .insufficientBalance
        else
          match s.token with
          | none => .err .tokenNotSet
          | some _ =>
            match checkedSubI128 bond.bonded_amount amount with
            | none => .err .arithmeticOverflow
            | some new_bonded =>
              let new_slashed :=
                if new_bonded < bond.slashed_amount then new_bonded
                else bond.slashed_amount
              .ok { s with bond := some { bond with
                      bonded_amount := new_bonded
                      slashed_amount := new_slashed } }

/-- Modelled from the spec: `early_exit_penalty.rs` is declared in
`lib.rs` but absent from the source tree. Per spec section 4.4 the
penalty is time-proportional,
`amount * penalty_bps * remaining_time / (total_duration * 10000)`,
computed with checked integer math. -/
def calculate_penalty (amount : Int) (remaining total_duration : Nat)
    (penalty_bps : Nat) : Option Int :=
  if total_duration = 0 then some 0
  else
    match checkedMulI128 amount (penalty_bps : Int) with
    | none => none
    | some m1 =>
      match checkedMulI128 m1 (remaining : Int) with
      | none => none
      | some m2 => some (Int.tdiv m2 ((total_duration : Int) * 10000))

/-- Embedded `withdraw_early` (lib.rs lines 727-786): only valid before lock-up
end; checks the available balance, applies the early-exit penalty to the
transferred amount, reduces `bonded_amount`, and panics if
`slashed_amount` would exceed the new `bonded_amount`. -/
def withdraw_early (s : ContractState) (amount : Int) (now : Nat) :
    Res ContractState :=
  match s.bond with
  | none => .err .noBond
  | some bond =>
    if saturatingAddU64 bond.bond_start bond.bond_duration ≤ now then
      .err .usePostLockupWithdraw
    else
      match checkedSubI128 bond.bonded_amount bond.slashed_amount with
      | none => .err .slashedExceedsBonded
      | some available =>
        if available < amount then .err .insufficientBalance
        else
          match calculate_penalty amount
              (saturatingAddU64 bond.bond_start bond.bond_duration - now)
              bond.bond_duration s.earlyPenaltyBps with
          | none => .err .arithmeticOverflow
          | some penalty =>
            match s.token with
            | none => .err .tokenNotSet
            | some _ =>
              match checkedSubI128 amount penalty with
              | none => .err .penaltyExceedsAmount
              | some _net =>
                match checkedSubI128 bond.bonded_amount amount with
                | none => .err .arithmeticOverflow
                | some new_bonded =>
                  if new_bonded < bond.slashed_amount then
                    .err .slashedExceedsBonded
                  else
                    .ok { s with bond := some { bond with
                            bonded_amount := new_bonded } }

/-- Embedded `cooldown::can_withdraw` (cooldown.rs lines 47-54): a request exists
(nonzero `request_time`) and `now >= request_time + period` with
`saturating_add`. -/
def can_withdraw (now request_time cooldown_period : Nat) : Bool :=
  if request_time = 0 then false
  else saturatingAddU64 request_time cooldown_period ≤ now

/-- Embedded `cooldown::is_cooldown_active` (cooldown.rs lines 36-43). -/
def is_cooldown_active (now request_time cooldown_period : Nat) : Bool :=
  if request_time = 0 then false
  else now < saturatingAddU64 request_time cooldown_period

/-- Embedded `request_cooldown_withdrawal` (lib.rs lines 1386-1433): positive
amount, requester must be the bond holder, amount within the available
balance, at most one pending request; records
`(requester, amount, now)`. -/
def request_cooldown_withdrawal (s : ContractState) (requester : Nat)
    (amount : Int) (now : Nat) : Res ContractState :=
  if amount ≤ 0 then .err .amountNotPositive
  else
    match s.bond with
    | none => .err .noBond
    | some bond =>
      if bond.identity ≠ requester then .err .notBondHolder
      else
        match checkedSubI128 bond.bonded_amount bond.slashed_amount with
        | none => .err .slashedExceedsBonded
        | some available =>
          if available < amount then .err .amountExceedsAvailable
          else if (lookupA s.cooldownReqs requester).isSome then
            .err .cooldownRequestPending
          else
            let request : CooldownRequest :=
              { requester := requester, amount := amount, requested_at := now }
            .ok { s with cooldownReqs := setA s.cooldownReqs requester request }

/-- Embedded `execute_cooldown_withdrawal` (lib.rs lines 1439-1487): requires a
pending request whose cooldown has elapsed, re-validates the available
balance at execution time, reduces `bonded_amount`, and removes the
request. -/
def execute_cooldown_withdrawal (s : ContractState) (requester : Nat)
    (now : Nat) : Res ContractState :=
  match lookupA s.cooldownReqs requester with
  | none => .err .noCooldownRequest
  | some request =>
    if can_withdraw now request.requested_at s.cooldownPeriod = false then
      .err .cooldownNotElapsed
    else
      match s.bond with
      | none => .err .noBond
      | some bond =>
        match checkedSubI128 bond.bonded_amount bond.slashed_amount with
        | none => .err .slashedExceedsBonded
        | some available =>
          if available < request.amount then .err .insufficientBalance
          else
            match checkedSubI128 bond.bonded_amount request.amount with
            | none => .err .arithmeticOverflow
            | some new_bonded =>
              if new_bonded < bond.slashed_amount then
                .err .slashedExceedsBonded
              else
                .ok { s with
                        bond := some { bond with bonded_amount := new_bonded }
                        cooldownReqs := removeA s.cooldownReqs requester }

/-- Embedded `cancel_cooldown` (lib.rs lines 1492-1502): removes the pending
request; panics with "no cooldown request to cancel" when none exists. -/
def cancel_cooldown (s : ContractState) (requester : Nat) :
    Res ContractState :=
  if (lookupA s.cooldownReqs requester).isSome = false then
    .err .noCooldownRequest
  else .ok { s with cooldownReqs := removeA s.cooldownReqs requester }

/-- Embedded `emergency::set_config` (emergency.rs lines 52-71): rejects fee bps
above 10000. -/
def emergency_set_config (s : ContractState) (governance treasury : Nat)
    (emergency_fee_bps : Nat) (enabled : Bool) : Res ContractState :=
  if 10000 < emergency_fee_bps then .err .feeBpsTooLarge
  else
    let cfg : EmergencyConfig :=
      { governance := governance
        treasury := treasury
        emergency_fee_bps := emergency_fee_bps
        enabled := enabled }
    .ok { s with emergencyCfg := some cfg }

/-- Embedded `emergency::calculate_fee` (emergency.rs lines 96-105):
`amount * fee_bps / 10000` with checked multiply, Rust i128 truncating
division. -/
def emergency_calculate_fee (amount : Int) (fee_bps : Nat) : Option Int :=
  if fee_bps = 0 then some 0
  else
    match checkedMulI128 amount (fee_bps : Int) with
    | none => none
    | some m => some (Int.tdiv m 10000)

/-- Embedded `emergency::store_record` (emergency.rs lines 117-156): increments the
record sequence with `checked_add(1)`, stores the record under the new
id, and returns the id. -/
def emergency_store_record (s : ContractState) (identity : Nat)
    (gross_amount fee_amount net_amount : Int) (treasury : Nat)
    (approved_admin approved_governance : Nat) (reason : Nat) (now : Nat) :
    Res (ContractState × Nat) :=
  match checkedAddU64 s.emergencySeq 1 with
  | none => .err .emergencyRecordIdOverflow
  | some next_id =>
    let record : EmergencyWithdrawalRecord :=
      { id := next_id
        identity := identity
        gross_amount := gross_amount
        fee_amount := fee_amount
        net_amount := net_amount
        treasury := treasury
        approved_admin := approved_admin
        approved_governance := approved_governance
        reason := reason
        timestamp := now }
    .ok ({ s with
            emergencySeq := next_id
            emergencyRecords := setA s.emergencyRecords next_id record },
         next_id)

/-- Embedded `emergency::latest_record_id` (emergency.rs lines 161-166). -/
def latest_record_id (s : ContractState) : Nat :=
  s.emergencySeq

/-- Embedded `emergency::get_record` (emergency.rs lines 171-176). -/
def get_emergency_record (s : ContractState) (id : Nat) :
    Res EmergencyWithdrawalRecord :=
  match lookupA s.emergencyRecords id with
  | none => .err .emergencyRecordNotFound
  | some record => .ok record

/-- Embedded `emergency_withdraw` (lib.rs lines 249-327): requires the caller to be
the admin and the governance approver to match the configured one,
emergency mode enabled, positive amount within the available balance;
deducts the emergency fee, reduces `bonded_amount`, checks the slashing
invariant, and writes an immutable audit record. -/
def emergency_withdraw (s : ContractState) (admin governance : Nat)
    (amount : Int) (reason : Nat) (now : Nat) : Res ContractState :=
  match validate_admin s admin with
  | .err e => .err e
  | .ok _ =>
    match s.emergencyCfg with
    | none => .err .emergencyConfigNotSet
    | some cfg =>
      if governance ≠ cfg.governance then .err .notGovernance
      else if cfg.enabled = false then .err .emergencyDisabled
      else if amount ≤ 0 then .err .amountNotPositive
      else
        match s.bond with
        | none => .err .noBond
        | some bond =>
          match checkedSubI128 bond.bonded_amount bond.slashed_amount with
          | none => .err .slashedExceedsBonded
          | some available =>
            if available < amount then .err .insufficientBalance
            else
              match emergency_calculate_fee amount cfg.emergency_fee_bps with
              | none => .err .arithmeticOverflow
              | some fee_amount =>
                match checkedSubI128 amount fee_amount with
                | none => .err .emergencyFeeExceedsAmount
                | some net_amount =>
                  match checkedSubI128 bond.bonded_amount amount with
                  | none => .err .arithmeticOverflow
                  | some new_bonded =>
                    if new_bonded < bond.slashed_amount then
                      .err .slashedExceedsBonded
                    else
                      match emergency_store_record s bond.identity amount
                          fee_amount net_amount cfg.treasury admin governance
                          reason now with
                      | .err e => .err e
                      | .ok (s1, _record_id) =>
                        .ok { s1 with bond := some { bond with bonded_amount := new_bonded } }

/-- Embedded `get_nonce` (lib.rs lines 632-634, backed by the per-identity nonce
map): the next expected nonce for an identity, 0 when unset. -/
def get_nonce (s : ContractState) (identity : Nat) : Nat :=
  (lookupA s.nonces identity).getD 0

/-- Embedded `add_attestation` (lib.rs lines 499-569). The entry point in the
source takes attester, subject and attestation data only — no nonce
parameter exists and no nonce is read or consumed. It requires the
attester to be registered, rejects a duplicate
`(attester, subject, attestation_data)` key among non-revoked
attestations, marks the key as seen, assigns the next counter id and
stores the attestation. -/
def add_attestation (s : ContractState) (attester subject : Nat)
    (attestation_data : Nat) (now : Nat) :
    Res (ContractState × Attestation) :=
  if (attester ∈ s.attesters : Bool) = false then .err .unauthorizedAttester
  else if ((attester, subject, attestation_data) ∈ s.dupKeys : Bool) then
    .err .duplicateAttestation
  else
    match checkedAddU64 s.attestationCounter 1 with
    | none => .err .attestationCounterOverflow
    | some next_id =>
      let id := s.attestationCounter
      let att : Attestation :=
        { id := id
          attester := attester
          subject := subject
          attestation_data := attestation_data
          timestamp := now
          revoked := false }
      let subjList := (lookupA s.subjectAtts subject).getD []
      .ok ({ s with
              dupKeys := (attester, subject, attestation_data) :: s.dupKeys
              attestationCounter := next_id
              attestations := setA s.attestations id att
              subjectAtts := setA s.subjectAtts subject (subjList ++ [id]) },
           att)

/-- Embedded `revoke_attestation` (lib.rs lines 574-607). The entry point accepts a
`nonce` argument but its body never reads it: only the original attester
check and the not-already-revoked check gate the call. The duplicate-check
key of the attestation is not removed. -/
def revoke_attestation (s : ContractState) (attester : Nat)
    (attestation_id : Nat) (_nonce : Nat) : Res ContractState :=
  match lookupA s.attestations attestation_id with
  | none => .err .attestationNotFound
  | some att =>
    if att.attester ≠ attester then .err .notOriginalAttester
    else if att.revoked then .err .alreadyRevoked
    else
      let atts1 := setA s.attestations attestation_id { att with revoked := true }
      .ok { s with attestations := atts1 }

/-- Embedded `get_attestation` (lib.rs lines 609-614). -/
def get_attestation (s : ContractState) (attestation_id : Nat) :
    Res Attestation :=
  match lookupA s.attestations attestation_id with
  | none => .err .attestationNotFound
  | some att => .ok att

/-- Modelled from the spec: `governance_approval.rs` is declared in
`lib.rs` but absent from the source tree. Per spec section 4.5,
`get_proposal` looks up a stored `SlashProposal` by id. -/
def get_proposal (s : ContractState) (proposal_id : Nat) :
    Option SlashProposal :=
  lookupA s.proposals proposal_id

/-- Modelled from the spec: `governance_approval.rs` is absent from the
source tree. Per spec section 4.5 a proposal executes only when quorum is
met against the snapshotted quorum-bps threshold and governor roster, and
the proposal is consumed one-shot. Returns whether execution was approved
together with the updated state. -/
def execute_slash_if_approved (s : ContractState) (proposal_id : Nat) :
    Bool × ContractState :=
  match lookupA s.proposals proposal_id with
  | none => (false, s)
  | some p =>
    if p.executed then (false, s)
    else if p.quorum_bps * p.governor_count ≤ p.approvals * 10000 then
      let props1 := setA s.proposals proposal_id { p with executed := true }
      (true, { s with proposals := props1 })
    else (false, s)

/-- Embedded `execute_slash_with_governance` (lib.rs lines 905-921): looks up the
proposal ("proposal not found"), requires the caller to be the original
proposer ("only proposer can execute"), requires quorum approval
("proposal not approved"), then invokes the capping
`slashing::slash_bond` with the proposer as the admin argument. No
slash-history record is written. -/
def execute_slash_with_governance (s : ContractState) (proposer : Nat)
    (proposal_id : Nat) : Res ContractState :=
  match get_proposal s proposal_id with
  | none => .err .proposalNotFound
  | some proposal =>
    if proposal.proposed_by ≠ proposer then .err .onlyProposerCanExecute
    else
      let step := execute_slash_if_approved s proposal_id
      if step.1 = false then .err .proposalNotApproved
      else slashing_slash_bond step.2 proposer proposal.amount

/-- Embedded `BondTier` from `lib.rs` (Bronze < Silver < Gold < Platinum). -/
inductive BondTier : Type where
  | Bronze
  | Silver
  | Gold
  | Platinum
deriving DecidableEq, Repr

/-- Modelled from the spec: `tiered_bond.rs` is declared in `lib.rs` but
absent from the source tree (only `test_tiered_bond.rs` remains). Per
spec section 4.3 and the boundary assertions of `test_tier_thresholds`,
`get_tier_for_amount` classifies by the three ordered cut points
`TIER_BRONZE_MAX`, `TIER_SILVER_MAX`, `TIER_GOLD_MAX` with inclusive
lower bounds and an unbounded top; the cut points are passed explicitly
here since their concrete values are in the missing module. -/
def get_tier_for_amount (tierBronzeMax tierSilverMax tierGoldMax : Int)
    (amount : Int) : BondTier :=
  if amount < tierBronzeMax then .Bronze
  else if amount < tierSilverMax then .Silver
  else if amount < tierGoldMax then .Gold
  else .Platinum

/-- One contract invocation on the bond ledger, tagged with the ledger
timestamp at which it runs. Covers the operation set of the invariant
claims: create, top-up, withdraw, withdraw-early, the cooldown triple,
direct slash, unslash and emergency withdraw. -/
inductive Op : Type where
  | create (identity : Nat) (amount : Int) (duration : Nat)
      (is_rolling : Bool) (notice_period : Nat) (now : Nat)
  | topUp (amount : Int)
  | withdraw (amount : Int) (now : Nat)
  | withdrawEarly (amount : Int) (now : Nat)
  | requestCooldown (requester : Nat) (amount : Int) (now : Nat)
  | executeCooldown (requester : Nat) (now : Nat)
  | cancelCooldownOp (requester : Nat)
  | slashOp (admin : Nat) (amount : Int)
  | unslashOp (admin : Nat) (amount : Int)
  | emergency (admin governance : Nat) (amount : Int) (reason : Nat)
      (now : Nat)
deriving DecidableEq, Repr

/-- Dispatch one operation to its embedded entry point. -/
def applyOp (s : ContractState) : Op → Res ContractState
  | .create identity amount duration is_rolling notice_period now =>
      create_bond_with_rolling s identity amount duration is_rolling
        notice_period now
  | .topUp amount => top_up s amount
  | .withdraw amount now => withdraw_bond s amount now
  | .withdrawEarly amount now => withdraw_early s amount now
  | .requestCooldown requester amount now =>
      request_cooldown_withdrawal s requester amount now
  | .executeCooldown requester now =>
      execute_cooldown_withdrawal s requester now
  | .cancelCooldownOp requester => cancel_cooldown s requester
  | .slashOp admin amount => slashing_slash_bond s admin amount
  | .unslashOp admin amount => unslash_bond s admin amount
  | .emergency admin governance amount reason now =>
      emergency_withdraw s admin governance amount reason now

/-- The central bond invariant: `0 <= slashed_amount <= bonded_amount`
whenever a bond is stored. -/
def bondInv (s : ContractState) : Prop :=
  ∀ b, s.bond = some b → 0 ≤ b.slashed_amount ∧
    b.slashed_amount ≤ b.bonded_amount

/-- Configuration side condition needed by bond creation: creation-fee
basis points within the documented `[0, 10000]` bound (spec section 3;
the setter lives in the missing `fees.rs`). -/
def cfgInv (s : ContractState) : Prop :=
  s.feeBps ≤ 10000

/-- Amount discipline on the admin penalty operations: a slash request is
non-negative, and an unslash request is between 0 and the currently
recorded `slashed_amount`. All other operations validate their own
amounts internally. -/
def amountsOk (s : ContractState) : Op → Prop
  | .slashOp _ amount => 0 ≤ amount
  | .unslashOp _ amount =>
      0 ≤ amount ∧ ∀ b, s.bond = some b → amount ≤ b.slashed_amount
  | _ => True

/-- Reachability by successful, amount-disciplined contract calls. -/
inductive ReachableOk : ContractState → ContractState → Prop where
  | refl (s : ContractState) : ReachableOk s s
  | step {s t u : ContractState} {op : Op} (h : ReachableOk s t)
      (hok : amountsOk t op) (happ : applyOp t op = .ok u) :
      ReachableOk s u


/-- Did the call succeed? -/
def isOk {α : Type} : Res α → Bool
  | .ok _ => true
  | .err _ => false

/-- The stored bond after a successful call, if any. -/
def okBond : Res ContractState → Option IdentityBond
  | .ok s => s.bond
  | .err _ => none

/-- The stored `slashed_amount` after a successful call, if any. -/
def okSlashed (r : Res ContractState) : Option Int :=
  (okBond r).map IdentityBond.slashed_amount

/-- The stored `bonded_amount` after a successful call, if any. -/
def okBonded (r : Res ContractState) : Option Int :=
  (okBond r).map IdentityBond.bonded_amount

theorem lookupA_setA_self {α : Type} (l : List (Nat × α)) (k : Nat) (v : α) :
    lookupA (setA l k v) k = some v := by
  induction l with
  | nil => simp [setA, lookupA]
  | cons hd tl ih =>
    by_cases h : hd.1 = k
    · simp [setA, h, lookupA]
    · simp [setA, h, lookupA, ih]

theorem lookupA_removeA_self {α : Type} (l : List (Nat × α)) (k : Nat) :
    lookupA (removeA l k) k = none := by
  induction l with
  | nil => simp [removeA, lookupA]
  | cons hd tl ih =>
    by_cases h : hd.1 = k
    · simp [removeA, h, ih]
    · simp [removeA, h, lookupA, ih]

/-- Numeric evaluation of the i128 lower bound, for `omega`. -/
theorem I128_MIN_eq : I128_MIN = -170141183460469231731687303715884105728 := by
  norm_num [I128_MIN]

/-- Numeric evaluation of the i128 upper bound, for `omega`. -/
theorem I128_MAX_eq : I128_MAX = 170141183460469231731687303715884105727 := by
  norm_num [I128_MAX]

/-- A bond with the given bonded and slashed amounts and neutral
lifecycle fields, used to build concrete evaluation states. -/
def simpleBond (bonded slashed : Int) : IdentityBond :=
  { identity := 7
    bonded_amount := bonded
    bond_start := 0
    bond_duration := 86400
    slashed_amount := slashed
    active := true
    is_rolling := false
    withdrawal_requested_at := 0
    notice_period := 0 }

/-- Replace the stored bond of `s` by `b` with its `slashed_amount` set
to `v`. -/
def withSlashed (s : ContractState) (b : IdentityBond) (v : Int) : ContractState :=
  { s with bond := some { b with slashed_amount := v } }

theorem validate_admin_ok (s : ContractState) (a : Nat)
    (h : s.admin = some a) : validate_admin s a = .ok () := by
  unfold validate_admin
  rw [h]
  simp

/-- Success shape of the capping slash path: with the admin caller, a
stored bond and an in-range sum, `slashing::slash_bond` always succeeds
and stores `min (slashed_amount + amount) bonded_amount`. -/
theorem slashing_slash_bond_ok (s : ContractState) (a : Nat)
    (b : IdentityBond) (amount : Int) (hadmin : s.admin = some a)
    (hbond : s.bond = some b)
    (hlo : I128_MIN ≤ b.slashed_amount + amount)
    (hhi : b.slashed_amount + amount ≤ I128_MAX) :
    slashing_slash_bond s a amount =
      .ok (withSlashed s b (min (b.slashed_amount + amount) b.bonded_amount)) := by
  have hcond : ¬(b.slashed_amount + amount < I128_MIN ∨
      I128_MAX < b.slashed_amount + amount) := by
    push_neg
    exact ⟨hlo, hhi⟩
  unfold slashing_slash_bond
  simp only [validate_admin_ok s a hadmin, hbond, checkedAddI128,
    if_neg hcond, withSlashed, min_def]
  split_ifs <;> first | rfl | (exfalso; omega)

/-- C7: spec-modelled tier classification. With any ordered cut points,
an amount exactly at a threshold maps to the higher tier (inclusive lower
bound), the value one below maps to the lower tier, and the top tier is
unbounded. -/
theorem C7_tier_boundaries (b s g : Int) (hbs : b < s) (hsg : s < g) :
    get_tier_for_amount b s g (b - 1) = BondTier.Bronze ∧
    get_tier_for_amount b s g b = BondTier.Silver ∧
    get_tier_for_amount b s g (s - 1) = BondTier.Silver ∧
    get_tier_for_amount b s g s = BondTier.Gold ∧
    get_tier_for_amount b s g (g - 1) = BondTier.Gold ∧
    get_tier_for_amount b s g g = BondTier.Platinum ∧
    (∀ x : Int, g ≤ x → get_tier_for_amount b s g x = BondTier.Platinum) ∧
    (∀ x : Int, x < b → get_tier_for_amount b s g x = BondTier.Bronze) := by
  unfold get_tier_for_amount
  refine ⟨?_, ?_, ?_, ?_, ?_, ?_, ?_, ?_⟩ <;> try intro x hx
  all_goals split_ifs <;> first | rfl | (exfalso; omega)

/-- C7 witness: concrete ordered cut points taken from the default tier
thresholds in `parameters.rs`. -/
theorem C7_tier_boundaries_witness :
    (100000000 : Int) < 1000000000 ∧ (1000000000 : Int) < 10000000000 ∧
    get_tier_for_amount 100000000 1000000000 10000000000 100000000 =
      BondTier.Silver := by
  refine ⟨by decide, by decide, ?_⟩
  exact (C7_tier_boundaries 100000000 1000000000 10000000000 (by decide)
    (by decide)).2.1

/-- Example state for the C8 evaluation: 50 bonded, 10 already slashed. -/
def c8State : ContractState :=
  { initState 1 with bond := some (simpleBond 50 10) }

/-- C8: the direct slash path accepts a negative amount and then lowers
`slashed_amount` (10 becomes 5) even though the operation is not an
unslash, contradicting the claimed monotonicity (and the monotonicity
note in slashing.rs itself). -/
theorem C8_slash_decreases_slashed_without_unslash :
    okSlashed (Res.ok c8State) = some 10 ∧
    okSlashed (slashing_slash_bond c8State 1 (-5)) = some 5 ∧
    (5 : Int) < 10 := by decide

/-- Example state for the C9 evaluation: 50 bonded, 4 slashed. -/
def c9State : ContractState :=
  { initState 1 with bond := some (simpleBond 50 4) }

/-- C9: unslashing more than the recorded `slashed_amount` succeeds and
stores the negative difference instead of the claimed floor clamp at 0:
unslash of 9 on a bond with 4 slashed yields -5, not max(4 - 9, 0) = 0. -/
theorem C9_unslash_not_floor_clamped :
    isOk (unslash_bond c9State 1 9) = true ∧
    okSlashed (unslash_bond c9State 1 9) = some (-5) ∧
    max ((4 : Int) - 9) 0 = 0 ∧ (-5 : Int) ≠ 0 := by decide

/-- Example state for the C2 counterexample: an active bond of 10 with
nothing slashed. -/
def c2State : ContractState :=
  { initState 1 with bond := some (simpleBond 10 0) }

/-- C2 counterexample: the `CredenceBond::slash_bond` direct admin entry
point (lib.rs line 1256) fails on an over-request of 20 against a bond of
10 instead of capping, refuting "never fails on an over-request" for the
direct admin slash as a whole. -/
theorem C2_counterexample_slash_bond_fails_on_over_request :
    CredenceBond_slash_bond c2State 1 20 = .err .slashExceedsBond := by
  decide

/-- C2 amended: on the capping path (`slashing::slash_bond`, reached via
the `slash` entry point), a non-negative in-range request never fails,
stores `min (slashed_amount + amount) bonded_amount`, and composing
slashes of `x` then `y` on a freshly unslashed bond yields
`min bonded_amount (x + y)`. -/
theorem C2_capped_slash_composition (s : ContractState) (a : Nat)
    (b : IdentityBond) (x y : Int) (hadmin : s.admin = some a)
    (hbond : s.bond = some b) (hx : 0 ≤ x) (hy : 0 ≤ y)
    (hs0 : b.slashed_amount = 0) (hb0 : 0 ≤ b.bonded_amount)
    (hxy : x + y ≤ I128_MAX) :
    ∃ s1 s2 : ContractState,
      slashing_slash_bond s a x = .ok s1 ∧
      (∃ b1, s1.bond = some b1 ∧
        b1.slashed_amount = min x b.bonded_amount ∧
        b1.bonded_amount = b.bonded_amount) ∧
      slashing_slash_bond s1 a y = .ok s2 ∧
      (∃ b2, s2.bond = some b2 ∧
        b2.slashed_amount = min b.bonded_amount (x + y)) := by
  have hminE := I128_MIN_eq
  have hmaxE := I128_MAX_eq
  have hv : min (b.slashed_amount + x) b.bonded_amount = min x b.bonded_amount := by
    rw [hs0, zero_add]
  have h1 := slashing_slash_bond_ok s a b x hadmin hbond (by omega)
    (by omega)
  rw [hv] at h1
  have hminx : 0 ≤ min x b.bonded_amount := le_min hx hb0
  have hminx2 : min x b.bonded_amount ≤ x := min_le_left x b.bonded_amount
  have h2 := slashing_slash_bond_ok (withSlashed s b (min x b.bonded_amount))
    a { b with slashed_amount := min x b.bonded_amount } y hadmin rfl
    (by simp only; omega) (by simp only; omega)
  refine ⟨_, _, h1, ⟨_, rfl, by simp only, by simp only⟩, h2, ?_⟩
  refine ⟨_, rfl, ?_⟩
  simp only
  rw [min_def, min_def, min_def]
  split_ifs <;> omega

/-- C2 witness: composing slashes of 4 then 9 on a fresh bond of 10 caps
the cumulative slash at 10 = min(10, 13). -/
theorem C2_capped_slash_composition_witness :
    (0 : Int) ≤ 4 ∧ (0 : Int) ≤ 9 ∧ (4 : Int) + 9 ≤ I128_MAX ∧
    (∃ s1 s2 : ContractState,
      slashing_slash_bond c2State 1 4 = .ok s1 ∧
      (∃ b1, s1.bond = some b1 ∧
        b1.slashed_amount = min 4 (simpleBond 10 0).bonded_amount ∧
        b1.bonded_amount = (simpleBond 10 0).bonded_amount) ∧
      slashing_slash_bond s1 1 9 = .ok s2 ∧
      (∃ b2, s2.bond = some b2 ∧
        b2.slashed_amount = min (simpleBond 10 0).bonded_amount (4 + 9))) := by
  refine ⟨by decide, by decide, by decide, ?_⟩
  exact C2_capped_slash_composition c2State 1 (simpleBond 10 0) 4 9 rfl rfl
    (by decide) (by decide) rfl (by decide) (by decide)

/-- The audit record written by a gross-200 emergency withdrawal. -/
def c6Record (s : ContractState) (a gov reason now : Nat)
    (cfg : EmergencyConfig) (b : IdentityBond) : EmergencyWithdrawalRecord :=
  { id := s.emergencySeq + 1
    identity := b.identity
    gross_amount := 200
    fee_amount := 10
    net_amount := 190
    treasury := cfg.treasury
    approved_admin := a
    approved_governance := gov
    reason := reason
    timestamp := now }

/-- The contract state after a gross-200 emergency withdrawal. -/
def c6Result (s : ContractState) (a gov reason now : Nat)
    (cfg : EmergencyConfig) (b : IdentityBond) : ContractState :=
  { s with
      bond := some { b with bonded_amount := b.bonded_amount - 200 }
      emergencySeq := s.emergencySeq + 1
      emergencyRecords := setA s.emergencyRecords (s.emergencySeq + 1) (c6Record s a gov reason now cfg b) }

/-- C6: general success shape of `emergency_withdraw` at `fee_bps = 500`
and gross amount 200: the fee is 10 and the net 190 (integer basis-point
division), the audit record id increments by exactly 1, and the stored
record is retrievable unchanged afterwards. -/
theorem C6_emergency_fee_and_audit_record (s : ContractState)
    (a gov reason now : Nat) (cfg : EmergencyConfig) (b : IdentityBond)
    (hadmin : s.admin = some a) (hcfg : s.emergencyCfg = some cfg)
    (hgov : cfg.governance = gov) (hen : cfg.enabled = true)
    (hbps : cfg.emergency_fee_bps = 500) (hbond : s.bond = some b)
    (hs0 : 0 ≤ b.slashed_amount) (hsb : b.slashed_amount ≤ b.bonded_amount)
    (hbmax : b.bonded_amount ≤ I128_MAX)
    (havail : 200 ≤ b.bonded_amount - b.slashed_amount)
    (hseq : s.emergencySeq + 1 ≤ U64_MAX) :
    ∃ s1, emergency_withdraw s a gov 200 reason now = .ok s1 ∧
      latest_record_id s1 = latest_record_id s + 1 ∧
      get_emergency_record s1 (s.emergencySeq + 1) =
        .ok (c6Record s a gov reason now cfg b) ∧
      (∃ b1, s1.bond = some b1 ∧ b1.bonded_amount = b.bonded_amount - 200 ∧
        b1.slashed_amount = b.slashed_amount) := by
  have hME := I128_MIN_eq
  have hMA := I128_MAX_eq
  have hfee : emergency_calculate_fee 200 cfg.emergency_fee_bps = some 10 := by
    rw [hbps]; decide
  have hnet : checkedSubI128 200 10 = some 190 := by decide
  have hav : checkedSubI128 b.bonded_amount b.slashed_amount =
      some (b.bonded_amount - b.slashed_amount) := by
    unfold checkedSubI128
    rw [if_neg (by omega)]
  have hnb : checkedSubI128 b.bonded_amount 200 =
      some (b.bonded_amount - 200) := by
    unfold checkedSubI128
    rw [if_neg (by omega)]
  have hseq1 : checkedAddU64 s.emergencySeq 1 = some (s.emergencySeq + 1) := by
    unfold checkedAddU64
    rw [if_neg (by omega)]
  have hguard1 : ¬((200 : Int) ≤ 0) := by decide
  have hguard2 : ¬(b.bonded_amount - b.slashed_amount < 200) := by omega
  have hguard3 : ¬(b.bonded_amount - 200 < b.slashed_amount) := by omega
  refine ⟨c6Result s a gov reason now cfg b, ?_, ?_, ?_, ?_⟩
  · unfold emergency_withdraw emergency_store_record c6Result c6Record
    simp only [validate_admin_ok s a hadmin, hcfg, hgov, hen, hbond, hfee,
      hnet, hav, hnb, hseq1, if_neg hguard1, if_neg hguard2, if_neg hguard3,
      ne_eq, not_true_eq_false, if_false]
    simp
  · rfl
  · unfold get_emergency_record c6Result
    simp only [lookupA_setA_self]
  · exact ⟨_, rfl, rfl, rfl⟩

/-- Emergency configuration for the C6 witness. -/
def c6Cfg : EmergencyConfig :=
  { governance := 9, treasury := 4, emergency_fee_bps := 500, enabled := true }

/-- Concrete state for the C6 witness. -/
def c6State : ContractState :=
  { initState 1 with bond := some (simpleBond 1000 0), emergencyCfg := some c6Cfg }

/-- C6 witness: instantiates the theorem at the concrete configured state
with a bond of 1000 and nothing slashed. -/
theorem C6_emergency_fee_and_audit_record_witness :
    (0 : Int) ≤ 0 ∧ (200 : Int) ≤ 1000 - 0 ∧
    (∃ s1, emergency_withdraw c6State 1 9 200 3 77 = .ok s1 ∧
      latest_record_id s1 = latest_record_id c6State + 1 ∧
      get_emergency_record s1 (c6State.emergencySeq + 1) =
        .ok (c6Record c6State 1 9 3 77 c6Cfg (simpleBond 1000 0)) ∧
      (∃ b1, s1.bond = some b1 ∧
        b1.bonded_amount = (simpleBond 1000 0).bonded_amount - 200 ∧
        b1.slashed_amount = (simpleBond 1000 0).slashed_amount)) := by
  refine ⟨by decide, by decide, ?_⟩
  exact C6_emergency_fee_and_audit_record c6State 1 9 3 77 c6Cfg
    (simpleBond 1000 0) rfl rfl rfl rfl rfl rfl (by decide) (by decide)
    (by decide) (by decide) (by decide)

/-- Attestation stored for the C3 evaluation: id 0 issued by attester 2
about subject 3. -/
def c3Att : Attestation :=
  { id := 0
    attester := 2
    subject := 3
    attestation_data := 5
    timestamp := 0
    revoked := false }

/-- Example state for the C3 evaluation. -/
def c3State : ContractState :=
  { initState 1 with attesters := [2], attestations := [(0, c3Att)] }

/-- C3: nonce sequencing is not enforced. The caller's expected next
nonce is 0, yet `revoke_attestation` succeeds with any nonce whatsoever
(the parameter is never read), and `add_attestation` has no nonce
parameter at all. -/
theorem C3_revoke_accepts_any_nonce :
    get_nonce c3State 2 = 0 ∧
    (∀ nonce : Nat, isOk (revoke_attestation c3State 2 0 nonce) = true) := by
  exact ⟨by decide, fun nonce => rfl⟩


/-- Embedded `U64_MAX` as a numeral, for `omega`. -/
theorem U64_MAX_eq : U64_MAX = 18446744073709551615 := by
  norm_num [U64_MAX]

/-- The attestation stored by a successful `add_attestation` call. -/
def newAttestation (s : ContractState) (attester subject data now : Nat) :
    Attestation :=
  { id := s.attestationCounter
    attester := attester
    subject := subject
    attestation_data := data
    timestamp := now
    revoked := false }

/-- The contract state after a successful `add_attestation` call. -/
def addAttestationResult (s : ContractState)
    (attester subject data now : Nat) : ContractState :=
  { s with
      dupKeys := (attester, subject, data) :: s.dupKeys
      attestationCounter := s.attestationCounter + 1
      attestations := setA s.attestations s.attestationCounter (newAttestation s attester subject data now)
      subjectAtts := setA s.subjectAtts subject (((lookupA s.subjectAtts subject).getD []) ++ [s.attestationCounter]) }

/-- Success shape of `add_attestation`: with an authorized attester, a
fresh dedup key and no counter overflow, the call succeeds, marks the
dedup key, and stores the attestation under the next id. -/
theorem add_attestation_ok (s : ContractState)
    (attester subject data now : Nat) (hauth : attester ∈ s.attesters)
    (hdup : (attester, subject, data) ∉ s.dupKeys)
    (hcnt : s.attestationCounter + 1 ≤ U64_MAX) :
    add_attestation s attester subject data now =
      .ok (addAttestationResult s attester subject data now,
           newAttestation s attester subject data now) := by
  have h1 : decide (attester ∈ s.attesters) = true := decide_eq_true hauth
  have h2 : decide ((attester, subject, data) ∈ s.dupKeys) = false :=
    decide_eq_false hdup
  have h3 : checkedAddU64 s.attestationCounter 1 =
      some (s.attestationCounter + 1) := by
    unfold checkedAddU64
    rw [if_neg (by omega)]
  unfold add_attestation addAttestationResult newAttestation
  simp only [h1, h2, h3]
  simp

/-- Duplicate rejection of `add_attestation`: when the dedup key is
already marked, the call fails with the duplicate error. -/
theorem add_attestation_duplicate (s : ContractState)
    (attester subject data now : Nat) (hauth : attester ∈ s.attesters)
    (hdup : (attester, subject, data) ∈ s.dupKeys) :
    add_attestation s attester subject data now =
      .err .duplicateAttestation := by
  have h1 : decide (attester ∈ s.attesters) = true := decide_eq_true hauth
  have h2 : decide ((attester, subject, data) ∈ s.dupKeys) = true :=
    decide_eq_true hdup
  unfold add_attestation
  simp only [h1, h2]
  simp

/-- Success shape of `revoke_attestation`: the stored attestation is
looked up by id, the caller must be its attester and it must not already
be revoked; the only storage change is the `revoked` flag. -/
theorem revoke_attestation_ok (s : ContractState)
    (attester attestation_id nonce : Nat) (att : Attestation)
    (hlook : lookupA s.attestations attestation_id = some att)
    (hatt : att.attester = attester) (hrev : att.revoked = false) :
    revoke_attestation s attester attestation_id nonce =
      .ok { s with attestations := setA s.attestations attestation_id { att with revoked := true } } := by
  unfold revoke_attestation
  simp only [hlook, hatt, hrev]
  simp

/-- C10 amended: the dedup key survives revocation. Under a fresh triple,
`add_attestation` succeeds; a second identical call fails as a duplicate;
and even after `revoke_attestation` of the first attestation, a third
identical call still fails as a duplicate (the claim instead expected it
to succeed). -/
theorem C10_dedup_key_survives_revocation (s : ContractState)
    (attester subject data now1 now2 now3 nonce : Nat)
    (hauth : attester ∈ s.attesters)
    (hdup : (attester, subject, data) ∉ s.dupKeys)
    (hcnt : s.attestationCounter + 1 ≤ U64_MAX) :
    ∃ s1 att, add_attestation s attester subject data now1 = .ok (s1, att) ∧
      add_attestation s1 attester subject data now2 =
        .err .duplicateAttestation ∧
      ∃ s2, revoke_attestation s1 attester att.id nonce = .ok s2 ∧
        add_attestation s2 attester subject data now3 =
          .err .duplicateAttestation := by
  have h1 := add_attestation_ok s attester subject data now1 hauth hdup hcnt
  refine ⟨_, _, h1, ?_, ?_⟩
  · exact add_attestation_duplicate _ attester subject data now2 hauth
      (List.mem_cons_self _ _)
  · have hlook : lookupA (addAttestationResult s attester subject data now1).attestations
        (newAttestation s attester subject data now1).id =
        some (newAttestation s attester subject data now1) := by
      unfold addAttestationResult newAttestation
      simp only [lookupA_setA_self]
    have h2 := revoke_attestation_ok
      (addAttestationResult s attester subject data now1) attester
      (newAttestation s attester subject data now1).id nonce
      (newAttestation s attester subject data now1) hlook rfl rfl
    refine ⟨_, h2, ?_⟩
    exact add_attestation_duplicate _ attester subject data now3 hauth
      (List.mem_cons_self _ _)

/-- C10 witness: a concrete fresh state with a registered attester. -/
def c10State : ContractState :=
  { initState 1 with attesters := [2] }

/-- C10 witness: instantiates the amended theorem at the concrete
state. -/
theorem C10_dedup_key_survives_revocation_witness :
    (2 ∈ c10State.attesters) ∧ ((2, 3, 5) ∉ c10State.dupKeys) ∧
    (∃ s1 att, add_attestation c10State 2 3 5 11 = .ok (s1, att) ∧
      add_attestation s1 2 3 5 12 = .err .duplicateAttestation ∧
      ∃ s2, revoke_attestation s1 2 att.id 0 = .ok s2 ∧
        add_attestation s2 2 3 5 13 = .err .duplicateAttestation) := by
  refine ⟨by decide, by decide, ?_⟩
  exact C10_dedup_key_survives_revocation c10State 2 3 5 11 12 13 0
    (by decide) (by decide) (by decide)

/-- First step of the C10 counterexample pipeline: the initial add. -/
def c10run1 : Res (ContractState × Attestation) :=
  add_attestation c10State 2 3 5 11

/-- Second step: revoke the attestation that the first step created. -/
def c10run2 : Res ContractState :=
  match c10run1 with
  | .ok (s1, att) => revoke_attestation s1 2 att.id 0
  | .err e => .err e

/-- Third step: re-attest the identical triple after the revocation. -/
def c10run3 : Res (ContractState × Attestation) :=
  match c10run2 with
  | .ok s2 => add_attestation s2 2 3 5 13
  | .err e => .err e

/-- C10 counterexample: the add succeeds and the revoke succeeds, yet
re-attesting the same (attester, subject, data) triple afterwards fails
as a duplicate, where the claim requires it to succeed. -/
theorem C10_counterexample_reattest_after_revoke_fails :
    isOk c10run1 = true ∧ isOk c10run2 = true ∧
    c10run3 = .err .duplicateAttestation := by
  decide


/-- Embedded `can_withdraw` is true exactly at and after the (non-saturating) end
of the window, for a nonzero request time. -/
theorem can_withdraw_true (now t0 p : Nat) (h0 : t0 ≠ 0)
    (hle : t0 + p ≤ now) (hmax : t0 + p ≤ U64_MAX) :
    can_withdraw now t0 p = true := by
  have hU := U64_MAX_eq
  unfold can_withdraw saturatingAddU64
  rw [if_neg h0]
  simp only [decide_eq_true_eq]
  omega

/-- Embedded `can_withdraw` is false strictly before the end of a non-overflowing
window. -/
theorem can_withdraw_false_early (now t0 p : Nat) (hlt : now < t0 + p)
    (hmax : t0 + p ≤ U64_MAX) : can_withdraw now t0 p = false := by
  have hU := U64_MAX_eq
  unfold can_withdraw saturatingAddU64
  by_cases h0 : t0 = 0
  · rw [if_pos h0]
  · rw [if_neg h0]
    simp only [decide_eq_false_iff_not]
    omega

/-- Success shape of `request_cooldown_withdrawal`. -/
theorem request_cooldown_ok (s : ContractState) (requester : Nat)
    (amt : Int) (now : Nat) (b : IdentityBond) (hbond : s.bond = some b)
    (hid : b.identity = requester) (hpos : 0 < amt)
    (hs0 : 0 ≤ b.slashed_amount) (hsb : b.slashed_amount ≤ b.bonded_amount)
    (hbmax : b.bonded_amount ≤ I128_MAX)
    (havail : amt ≤ b.bonded_amount - b.slashed_amount)
    (hnone : lookupA s.cooldownReqs requester = none) :
    request_cooldown_withdrawal s requester amt now =
      .ok { s with cooldownReqs := setA s.cooldownReqs requester { requester := requester, amount := amt, requested_at := now } } := by
  have hME := I128_MIN_eq
  have hMA := I128_MAX_eq
  have hav : checkedSubI128 b.bonded_amount b.slashed_amount =
      some (b.bonded_amount - b.slashed_amount) := by
    unfold checkedSubI128
    rw [if_neg (by omega)]
  have hg1 : ¬(amt ≤ 0) := by omega
  have hg2 : ¬(b.bonded_amount - b.slashed_amount < amt) := by omega
  unfold request_cooldown_withdrawal
  simp only [hbond, hid, hav, hnone, if_neg hg1, if_neg hg2, ne_eq,
    not_true_eq_false, if_false, Option.isSome_none, Bool.false_eq_true]

/-- Success shape of `execute_cooldown_withdrawal`: elapsed window,
positive requested amount still covered by the available balance. -/
theorem execute_cooldown_ok (s : ContractState) (requester now : Nat)
    (r : CooldownRequest) (b : IdentityBond)
    (hreq : lookupA s.cooldownReqs requester = some r)
    (hcw : can_withdraw now r.requested_at s.cooldownPeriod = true)
    (hbond : s.bond = some b) (hpos : 0 < r.amount)
    (hs0 : 0 ≤ b.slashed_amount) (hsb : b.slashed_amount ≤ b.bonded_amount)
    (hbmax : b.bonded_amount ≤ I128_MAX)
    (havail : r.amount ≤ b.bonded_amount - b.slashed_amount) :
    execute_cooldown_withdrawal s requester now =
      .ok { s with bond := some { b with bonded_amount := b.bonded_amount - r.amount }, cooldownReqs := removeA s.cooldownReqs requester } := by
  have hME := I128_MIN_eq
  have hMA := I128_MAX_eq
  have hav : checkedSubI128 b.bonded_amount b.slashed_amount =
      some (b.bonded_amount - b.slashed_amount) := by
    unfold checkedSubI128
    rw [if_neg (by omega)]
  have hnb : checkedSubI128 b.bonded_amount r.amount =
      some (b.bonded_amount - r.amount) := by
    unfold checkedSubI128
    rw [if_neg (by omega)]
  have hg1 : ¬(b.bonded_amount - b.slashed_amount < r.amount) := by omega
  have hg2 : ¬(b.bonded_amount - r.amount < b.slashed_amount) := by omega
  unfold execute_cooldown_withdrawal
  simp only [hreq, hcw, hbond, hav, hnb, if_neg hg1, if_neg hg2]
  simp

/-- Embedded `execute_cooldown_withdrawal` fails while the window has not
elapsed. -/
theorem execute_cooldown_not_elapsed (s : ContractState)
    (requester now : Nat) (r : CooldownRequest)
    (hreq : lookupA s.cooldownReqs requester = some r)
    (hcw : can_withdraw now r.requested_at s.cooldownPeriod = false) :
    execute_cooldown_withdrawal s requester now = .err .cooldownNotElapsed := by
  unfold execute_cooldown_withdrawal
  simp only [hreq, hcw]
  simp

/-- Embedded `execute_cooldown_withdrawal` fails with the no-request error when no
request is pending. -/
theorem execute_cooldown_no_request (s : ContractState)
    (requester now : Nat)
    (hreq : lookupA s.cooldownReqs requester = none) :
    execute_cooldown_withdrawal s requester now = .err .noCooldownRequest := by
  unfold execute_cooldown_withdrawal
  simp only [hreq]

/-- Success shape of `cancel_cooldown`. -/
theorem cancel_cooldown_ok (s : ContractState) (requester : Nat)
    (r : CooldownRequest)
    (hreq : lookupA s.cooldownReqs requester = some r) :
    cancel_cooldown s requester =
      .ok { s with cooldownReqs := removeA s.cooldownReqs requester } := by
  unfold cancel_cooldown
  simp only [hreq]
  simp

/-- C4 amended: for a request made at a nonzero ledger timestamp with a
non-overflowing window, the round trip request, advance by the configured
period, execute reduces `bonded_amount` by exactly the requested amount;
executing strictly before the period has elapsed always fails; and
executing after `cancel_cooldown` always fails with the no-request
error. (The claim as stated also covers requests made at ledger
timestamp 0, which the code treats as "no request".) -/
theorem C4_cooldown_round_trip (s : ContractState) (requester : Nat)
    (amt : Int) (t0 : Nat) (b : IdentityBond) (hbond : s.bond = some b)
    (hid : b.identity = requester) (hpos : 0 < amt)
    (hs0 : 0 ≤ b.slashed_amount) (hsb : b.slashed_amount ≤ b.bonded_amount)
    (hbmax : b.bonded_amount ≤ I128_MAX)
    (havail : amt ≤ b.bonded_amount - b.slashed_amount)
    (hnone : lookupA s.cooldownReqs requester = none) (ht0 : 1 ≤ t0)
    (htp : t0 + s.cooldownPeriod ≤ U64_MAX) :
    ∃ s1, request_cooldown_withdrawal s requester amt t0 = .ok s1 ∧
      (∃ s2 b2,
        execute_cooldown_withdrawal s1 requester (t0 + s.cooldownPeriod) =
          .ok s2 ∧ s2.bond = some b2 ∧
        b2.bonded_amount = b.bonded_amount - amt ∧
        b2.slashed_amount = b.slashed_amount) ∧
      (∀ t, t < t0 + s.cooldownPeriod →
        execute_cooldown_withdrawal s1 requester t =
          .err .cooldownNotElapsed) ∧
      (∃ s3, cancel_cooldown s1 requester = .ok s3 ∧
        ∀ t, execute_cooldown_withdrawal s3 requester t =
          .err .noCooldownRequest) := by
  have h1 := request_cooldown_ok s requester amt t0 b hbond hid hpos hs0
    hsb hbmax havail hnone
  refine ⟨_, h1, ?_, ?_, ?_⟩
  · have hlook : lookupA (setA s.cooldownReqs requester { requester := requester, amount := amt, requested_at := t0 }) requester = some { requester := requester, amount := amt, requested_at := t0 } :=
      lookupA_setA_self s.cooldownReqs requester _
    have hcw : can_withdraw (t0 + s.cooldownPeriod) t0 s.cooldownPeriod = true :=
      can_withdraw_true _ _ _ (by omega) (le_refl _) htp
    have h2 := execute_cooldown_ok { s with cooldownReqs := setA s.cooldownReqs requester { requester := requester, amount := amt, requested_at := t0 } } requester (t0 + s.cooldownPeriod)
      { requester := requester, amount := amt, requested_at := t0 } b hlook
      hcw hbond hpos hs0 hsb hbmax havail
    exact ⟨_, _, h2, rfl, rfl, rfl⟩
  · intro t ht
    have hlook : lookupA (setA s.cooldownReqs requester { requester := requester, amount := amt, requested_at := t0 }) requester = some { requester := requester, amount := amt, requested_at := t0 } :=
      lookupA_setA_self s.cooldownReqs requester _
    exact execute_cooldown_not_elapsed { s with cooldownReqs := setA s.cooldownReqs requester { requester := requester, amount := amt, requested_at := t0 } } requester t _ hlook
      (can_withdraw_false_early t t0 s.cooldownPeriod ht htp)
  · have hlook : lookupA (setA s.cooldownReqs requester { requester := requester, amount := amt, requested_at := t0 }) requester = some { requester := requester, amount := amt, requested_at := t0 } :=
      lookupA_setA_self s.cooldownReqs requester _
    have h3 := cancel_cooldown_ok { s with cooldownReqs := setA s.cooldownReqs requester { requester := requester, amount := amt, requested_at := t0 } } requester _ hlook
    refine ⟨_, h3, ?_⟩
    intro t
    exact execute_cooldown_no_request _ requester t
      (lookupA_removeA_self _ requester)

/-- Concrete state for C4: a bond of 1000 with nothing slashed and a
100-second cooldown period. -/
def c4State : ContractState :=
  { initState 1 with bond := some (simpleBond 1000 0), cooldownPeriod := 100 }

/-- C4 witness: instantiates the amended theorem for a request made at
timestamp 1000 with period 100. -/
theorem C4_cooldown_round_trip_witness :
    (0 : Int) < 500 ∧ (500 : Int) ≤ 1000 - 0 ∧ 1 ≤ 1000 ∧
    (∃ s1, request_cooldown_withdrawal c4State 7 500 1000 = .ok s1 ∧
      (∃ s2 b2,
        execute_cooldown_withdrawal s1 7 (1000 + c4State.cooldownPeriod) =
          .ok s2 ∧ s2.bond = some b2 ∧
        b2.bonded_amount = (simpleBond 1000 0).bonded_amount - 500 ∧
        b2.slashed_amount = (simpleBond 1000 0).slashed_amount) ∧
      (∀ t, t < 1000 + c4State.cooldownPeriod →
        execute_cooldown_withdrawal s1 7 t = .err .cooldownNotElapsed) ∧
      (∃ s3, cancel_cooldown s1 7 = .ok s3 ∧
        ∀ t, execute_cooldown_withdrawal s3 7 t =
          .err .noCooldownRequest)) := by
  refine ⟨by decide, by decide, by decide, ?_⟩
  exact C4_cooldown_round_trip c4State 7 500 1000 (simpleBond 1000 0) rfl
    rfl (by decide) (by decide) (by decide) (by decide) (by decide) rfl
    (by decide) (by decide)

/-- First step of the C4 counterexample pipeline: a cooldown request made
at ledger timestamp 0. -/
def c4run1 : Res ContractState :=
  request_cooldown_withdrawal c4State 7 500 0

/-- Second step: execute after advancing time by exactly the configured
period (to timestamp 100). -/
def c4run2 : Res ContractState :=
  match c4run1 with
  | .ok s1 => execute_cooldown_withdrawal s1 7 100
  | .err e => .err e

/-- C4 counterexample: a request made at ledger timestamp 0 is accepted,
yet executing after advancing time by the full configured period fails
with "cooldown period has not elapsed" (the stored `requested_at = 0` is
indistinguishable from "no request" in `can_withdraw`), where the claim
requires the execution to succeed and reduce the bond. -/
theorem C4_counterexample_request_at_time_zero :
    isOk c4run1 = true ∧ c4run2 = .err .cooldownNotElapsed := by
  decide


/-- The per-identity slash history after a successful call, if any. -/
def okHistory (r : Res ContractState) (identity : Nat) :
    Option (List SlashRecord) :=
  match r with
  | .ok s => some (get_slash_history s identity)
  | .err _ => none

/-- C5 amended: `execute_slash_with_governance` reports proposal-not-found,
non-proposer execution and quorum-not-met as three distinct failures
(never a silent no-op); on success (quorum met, caller is the original
proposer, who must also hold the admin role for the inner slash) it
applies the same capped slash operation — but appends no slash-history
record: the slash history is left unchanged. -/
theorem C5_governance_execution (s : ContractState)
    (proposer proposal_id : Nat) :
    (get_proposal s proposal_id = none →
      execute_slash_with_governance s proposer proposal_id =
        .err .proposalNotFound) ∧
    (∀ p, get_proposal s proposal_id = some p → p.proposed_by ≠ proposer →
      execute_slash_with_governance s proposer proposal_id =
        .err .onlyProposerCanExecute) ∧
    (∀ p, get_proposal s proposal_id = some p → p.proposed_by = proposer →
      p.approvals * 10000 < p.quorum_bps * p.governor_count →
      p.executed = false →
      execute_slash_with_governance s proposer proposal_id =
        .err .proposalNotApproved) ∧
    (∀ p b, get_proposal s proposal_id = some p → p.proposed_by = proposer →
      p.quorum_bps * p.governor_count ≤ p.approvals * 10000 →
      p.executed = false → s.admin = some proposer → s.bond = some b →
      I128_MIN ≤ b.slashed_amount + p.amount →
      b.slashed_amount + p.amount ≤ I128_MAX →
      ∃ s1, execute_slash_with_governance s proposer proposal_id = .ok s1 ∧
        (∃ b1, s1.bond = some b1 ∧
          b1.slashed_amount =
            min (b.slashed_amount + p.amount) b.bonded_amount ∧
          b1.bonded_amount = b.bonded_amount) ∧
        s1.slashHistory = s.slashHistory) := by
  refine ⟨?_, ?_, ?_, ?_⟩
  · intro hnone
    unfold execute_slash_with_governance
    simp only [hnone]
  · intro p hp hne
    unfold execute_slash_with_governance
    simp only [hp, if_pos hne]
  · intro p hp hpe hq hexec
    have hq2 : ¬(p.quorum_bps * p.governor_count ≤ p.approvals * 10000) := by
      omega
    unfold execute_slash_with_governance execute_slash_if_approved
    unfold get_proposal at hp
    simp only [get_proposal, hp, hpe, hexec, if_neg hq2, ne_eq,
      not_true_eq_false, if_false]
    simp
  · intro p b hp hpe hq hexec hadmin hbond hlo hhi
    have hne2 : ¬(p.proposed_by ≠ proposer) := by simp [hpe]
    unfold get_proposal at hp
    have hstep : execute_slash_if_approved s proposal_id =
        (true, { s with proposals := setA s.proposals proposal_id { p with executed := true } }) := by
      unfold execute_slash_if_approved
      simp only [hp, hexec, Bool.false_eq_true, if_false, if_pos hq]
    have hslash := slashing_slash_bond_ok
      { s with proposals := setA s.proposals proposal_id { p with executed := true } }
      proposer b p.amount hadmin hbond hlo hhi
    unfold execute_slash_with_governance
    simp only [get_proposal, hp, if_neg hne2, hstep]
    simp only [Bool.true_eq_false, if_false]
    exact ⟨_, hslash, ⟨_, rfl, rfl, rfl⟩, rfl⟩


/-- A fully approved slash proposal of amount 5 proposed by the admin. -/
def c5Prop : SlashProposal :=
  { id := 1
    amount := 5
    proposed_by := 1
    approvals := 2
    quorum_bps := 10000
    governor_count := 2
    executed := false }

/-- Concrete state for C5: the approved proposal and a bond of 50 with
nothing slashed; no slash history exists. -/
def c5State : ContractState :=
  { initState 1 with bond := some (simpleBond 50 0), proposals := [(1, c5Prop)] }

/-- The governance execution call of the C5 counterexample. -/
def c5run : Res ContractState :=
  execute_slash_with_governance c5State 1 1

/-- C5 counterexample: with quorum met and the original proposer calling,
`execute_slash_with_governance` succeeds and applies the capped slash
(slashed amount becomes 5), yet the slash history of the identity remains
empty — no `(identity, amount, reason, timestamp, cumulative_after)`
record is appended, where the claim requires one. -/
theorem C5_counterexample_no_history_record :
    isOk c5run = true ∧ okSlashed c5run = some 5 ∧
    okHistory c5run 7 = some [] := by
  decide

/-- C5 witness: instantiates the amended theorem at the concrete approved
proposal. -/
theorem C5_governance_execution_witness :
    c5Prop.proposed_by = 1 ∧
    c5Prop.quorum_bps * c5Prop.governor_count ≤ c5Prop.approvals * 10000 ∧
    c5Prop.executed = false ∧
    (∃ s1, execute_slash_with_governance c5State 1 1 = .ok s1 ∧
      (∃ b1, s1.bond = some b1 ∧
        b1.slashed_amount =
          min ((simpleBond 50 0).slashed_amount + c5Prop.amount)
            (simpleBond 50 0).bonded_amount ∧
        b1.bonded_amount = (simpleBond 50 0).bonded_amount) ∧
      s1.slashHistory = c5State.slashHistory) := by
  refine ⟨by decide, by decide, by decide, ?_⟩
  exact (C5_governance_execution c5State 1 1).2.2.2 c5Prop (simpleBond 50 0)
    rfl rfl (by decide) rfl rfl rfl (by decide) (by decide)


/-- Value extraction for a successful `checked_add`. -/
theorem checkedAddI128_some {a b c : Int} (h : checkedAddI128 a b = some c) :
    c = a + b := by
  unfold checkedAddI128 at h
  split at h
  · simp at h
  · rw [Option.some.injEq] at h
    omega

/-- Value extraction for a successful `checked_sub`. -/
theorem checkedSubI128_some {a b c : Int} (h : checkedSubI128 a b = some c) :
    c = a - b := by
  unfold checkedSubI128 at h
  split at h
  · simp at h
  · rw [Option.some.injEq] at h
    omega

/-- Value extraction for a successful u64 `checked_add`. -/
theorem checkedAddU64_some {a b c : Nat} (h : checkedAddU64 a b = some c) :
    c = a + b := by
  unfold checkedAddU64 at h
  split at h
  · simp at h
  · rw [Option.some.injEq] at h
    omega

/-- The creation fee is between 0 and the full amount when the fee bps
stay within the documented bound. -/
theorem fee_bounds (amount : Int) (bps : Nat) (hA : 0 ≤ amount)
    (hbps : bps ≤ 10000) :
    0 ≤ Int.tdiv (amount * (bps : Int)) 10000 ∧
    Int.tdiv (amount * (bps : Int)) 10000 ≤ amount := by
  have hb0 : (0 : Int) ≤ (bps : Int) := Int.ofNat_nonneg bps
  have hprod : 0 ≤ amount * (bps : Int) := mul_nonneg hA hb0
  constructor
  · exact Int.tdiv_nonneg hprod (by norm_num)
  · rw [Int.tdiv_eq_ediv hprod (by norm_num)]
    have hle : amount * (bps : Int) ≤ amount * 10000 := by
      apply mul_le_mul_of_nonneg_left _ hA
      exact_mod_cast hbps
    calc amount * (bps : Int) / 10000 ≤ amount * 10000 / 10000 :=
          Int.ediv_le_ediv (by norm_num) hle
      _ = amount := Int.mul_ediv_cancel amount (by norm_num)

/-- Embedded `create_bond_with_rolling` preserves the bond invariant: the fresh
bond has `slashed_amount = 0` and a non-negative net bonded amount. -/
theorem create_preserves (s u : ContractState)
    (identity : Nat) (amount : Int) (duration : Nat) (is_rolling : Bool)
    (notice_period now : Nat) (hcfg : s.feeBps ≤ 10000)
    (happ : create_bond_with_rolling s identity amount duration is_rolling
      notice_period now = .ok u) :
    bondInv u ∧ u.feeBps = s.feeBps := by
  unfold create_bond_with_rolling fees_calculate_fee at happ
  split at happ
  · exact absurd happ (by simp)
  · rename_i hA
    split at happ
    · exact absurd happ (by simp)
    · split at happ
      · exact absurd happ (by simp)
      · rw [Res.ok.injEq] at happ
        subst happ
        push_neg at hA
        constructor
        · intro bb hbb
          rw [Option.some.injEq] at hbb
          subst hbb
          simp only
          split
          · rename_i hfee
            have hb := fee_bounds amount s.feeBps hA hcfg
            simp only
            omega
          · simp only
            omega
        · rfl

/-- Embedded `top_up` preserves the bond invariant: `bonded_amount` only grows by
a positive amount and `slashed_amount` is untouched. -/
theorem top_up_preserves (s u : ContractState) (amount : Int)
    (hinv : bondInv s)
    (happ : top_up s amount = .ok u) :
    bondInv u ∧ u.feeBps = s.feeBps := by
  unfold top_up at happ
  split at happ
  · exact absurd happ (by simp)
  · rename_i hmin
    split at happ
    · exact absurd happ (by simp)
    · rename_i b hb
      split at happ
      · exact absurd happ (by simp)
      · rename_i nb hnb
        have hnb2 := checkedAddI128_some hnb
        split at happ
        · exact absurd happ (by simp)
        · split at happ
          · exact absurd happ (by simp)
          · rw [Res.ok.injEq] at happ
            subst happ
            obtain ⟨h1, h2⟩ := hinv b hb
            have hM : MIN_BOND_AMOUNT = 1000000 := rfl
            constructor
            · intro bb hbb
              rw [Option.some.injEq] at hbb
              subst hbb
              simp only
              omega
            · rfl


/-- Embedded `withdraw_bond` preserves the bond invariant: the available-balance
check keeps `slashed_amount` at or below the reduced `bonded_amount`, and
the clamp branch cannot lower it below zero. -/
theorem withdraw_bond_preserves (s u : ContractState) (amount : Int)
    (now : Nat) (hinv : bondInv s)
    (happ : withdraw_bond s amount now = .ok u) :
    bondInv u ∧ u.feeBps = s.feeBps := by
  unfold withdraw_bond at happ
  split at happ
  · exact absurd happ (by simp)
  · rename_i b hb
    split at happ
    · exact absurd happ (by simp)
    · split at happ
      · exact absurd happ (by simp)
      · rename_i avail havail
        have havail2 := checkedSubI128_some havail
        split at happ
        · exact absurd happ (by simp)
        · rename_i hge
          split at happ
          · exact absurd happ (by simp)
          · split at happ
            · exact absurd happ (by simp)
            · rename_i nb hnb
              have hnb2 := checkedSubI128_some hnb
              rw [Res.ok.injEq] at happ
              subst happ
              obtain ⟨h1, h2⟩ := hinv b hb
              constructor
              · intro bb hbb
                rw [Option.some.injEq] at hbb
                subst hbb
                constructor
                · simp only
                  split <;> omega
                · simp only
                  split <;> omega
              · rfl

/-- Embedded `withdraw_early` preserves the bond invariant: the explicit
post-withdrawal check rejects any state where `slashed_amount` would
exceed the reduced `bonded_amount`. -/
theorem withdraw_early_preserves (s u : ContractState) (amount : Int)
    (now : Nat) (hinv : bondInv s)
    (happ : withdraw_early s amount now = .ok u) :
    bondInv u ∧ u.feeBps = s.feeBps := by
  unfold withdraw_early at happ
  split at happ
  · exact absurd happ (by simp)
  · rename_i b hb
    split at happ
    · exact absurd happ (by simp)
    · split at happ
      · exact absurd happ (by simp)
      · rename_i avail havail
        have havail2 := checkedSubI128_some havail
        split at happ
        · exact absurd happ (by simp)
        · split at happ
          · exact absurd happ (by simp)
          · split at happ
            · exact absurd happ (by simp)
            · split at happ
              · exact absurd happ (by simp)
              · split at happ
                · exact absurd happ (by simp)
                · rename_i nb hnb
                  have hnb2 := checkedSubI128_some hnb
                  split at happ
                  · exact absurd happ (by simp)
                  · rename_i hclamp
                    rw [Res.ok.injEq] at happ
                    subst happ
                    obtain ⟨h1, h2⟩ := hinv b hb
                    constructor
                    · intro bb hbb
                      rw [Option.some.injEq] at hbb
                      subst hbb
                      simp only
                      omega
                    · rfl

/-- Embedded `request_cooldown_withdrawal` preserves the bond invariant: it never
writes the bond. -/
theorem request_cooldown_preserves (s u : ContractState)
    (requester : Nat) (amount : Int) (now : Nat) (hinv : bondInv s)
    (happ : request_cooldown_withdrawal s requester amount now = .ok u) :
    bondInv u ∧ u.feeBps = s.feeBps := by
  unfold request_cooldown_withdrawal at happ
  split at happ
  · exact absurd happ (by simp)
  · split at happ
    · exact absurd happ (by simp)
    · split at happ
      · exact absurd happ (by simp)
      · split at happ
        · exact absurd happ (by simp)
        · split at happ
          · exact absurd happ (by simp)
          · split at happ
            · exact absurd happ (by simp)
            · rw [Res.ok.injEq] at happ
              subst happ
              exact ⟨fun bb hbb => hinv bb hbb, rfl⟩

/-- Embedded `execute_cooldown_withdrawal` preserves the bond invariant: the
re-validated balance and explicit post-withdrawal check protect both
bounds. -/
theorem execute_cooldown_preserves (s u : ContractState)
    (requester now : Nat) (hinv : bondInv s)
    (happ : execute_cooldown_withdrawal s requester now = .ok u) :
    bondInv u ∧ u.feeBps = s.feeBps := by
  unfold execute_cooldown_withdrawal at happ
  split at happ
  · exact absurd happ (by simp)
  · split at happ
    · exact absurd happ (by simp)
    · split at happ
      · exact absurd happ (by simp)
      · rename_i b hb
        split at happ
        · exact absurd happ (by simp)
        · split at happ
          · exact absurd happ (by simp)
          · split at happ
            · exact absurd happ (by simp)
            · rename_i nb hnb
              have hnb2 := checkedSubI128_some hnb
              split at happ
              · exact absurd happ (by simp)
              · rename_i hclamp
                rw [Res.ok.injEq] at happ
                subst happ
                obtain ⟨h1, h2⟩ := hinv b hb
                constructor
                · intro bb hbb
                  rw [Option.some.injEq] at hbb
                  subst hbb
                  simp only
                  omega
                · rfl

/-- Embedded `cancel_cooldown` preserves the bond invariant: it never writes the
bond. -/
theorem cancel_cooldown_preserves (s u : ContractState) (requester : Nat)
    (hinv : bondInv s) (happ : cancel_cooldown s requester = .ok u) :
    bondInv u ∧ u.feeBps = s.feeBps := by
  unfold cancel_cooldown at happ
  split at happ
  · exact absurd happ (by simp)
  · rw [Res.ok.injEq] at happ
    subst happ
    exact ⟨fun bb hbb => hinv bb hbb, rfl⟩

/-- The capping slash preserves the bond invariant for non-negative
amounts. -/
theorem slash_preserves (s u : ContractState) (admin : Nat) (amount : Int)
    (hinv : bondInv s) (hamt : 0 ≤ amount)
    (happ : slashing_slash_bond s admin amount = .ok u) :
    bondInv u ∧ u.feeBps = s.feeBps := by
  unfold slashing_slash_bond at happ
  split at happ
  · exact absurd happ (by simp)
  · split at happ
    · exact absurd happ (by simp)
    · rename_i b hb
      split at happ
      · exact absurd happ (by simp)
      · rename_i ns hns
        have hns2 := checkedAddI128_some hns
        rw [Res.ok.injEq] at happ
        subst happ
        obtain ⟨h1, h2⟩ := hinv b hb
        constructor
        · intro bb hbb
          rw [Option.some.injEq] at hbb
          subst hbb
          constructor
          · simp only
            split <;> omega
          · simp only
            split <;> omega
        · rfl

/-- Embedded `unslash_bond` preserves the bond invariant when the unslash amount
is between 0 and the currently recorded `slashed_amount`. -/
theorem unslash_preserves (s u : ContractState) (admin : Nat)
    (amount : Int) (hinv : bondInv s) (hamt : 0 ≤ amount)
    (hub : ∀ b, s.bond = some b → amount ≤ b.slashed_amount)
    (happ : unslash_bond s admin amount = .ok u) :
    bondInv u ∧ u.feeBps = s.feeBps := by
  unfold unslash_bond at happ
  split at happ
  · exact absurd happ (by simp)
  · split at happ
    · exact absurd happ (by simp)
    · rename_i b hb
      split at happ
      · exact absurd happ (by simp)
      · rename_i ns hns
        have hns2 := checkedSubI128_some hns
        rw [Res.ok.injEq] at happ
        subst happ
        obtain ⟨h1, h2⟩ := hinv b hb
        have h3 := hub b hb
        constructor
        · intro bb hbb
          rw [Option.some.injEq] at hbb
          subst hbb
          simp only
          omega
        · rfl

/-- Both the updated state of `emergency_store_record` and its bond and
fee configuration are those of the input state. -/
theorem emergency_store_record_fields (s s1 : ContractState)
    (identity : Nat) (gross fee net : Int) (treasury a g reason now : Nat)
    (rid : Nat)
    (h : emergency_store_record s identity gross fee net treasury a g
      reason now = .ok (s1, rid)) :
    s1.bond = s.bond ∧ s1.feeBps = s.feeBps := by
  unfold emergency_store_record at h
  split at h
  · exact absurd h (by simp)
  · rw [Res.ok.injEq, Prod.mk.injEq] at h
    obtain ⟨h1, _⟩ := h
    subst h1
    exact ⟨rfl, rfl⟩

/-- Embedded `emergency_withdraw` preserves the bond invariant: the explicit
post-withdrawal check rejects any violating state before persisting. -/
theorem emergency_withdraw_preserves (s u : ContractState)
    (admin governance : Nat) (amount : Int) (reason now : Nat)
    (hinv : bondInv s)
    (happ : emergency_withdraw s admin governance amount reason now = .ok u) :
    bondInv u ∧ u.feeBps = s.feeBps := by
  unfold emergency_withdraw at happ
  split at happ
  · exact absurd happ (by simp)
  · split at happ
    · exact absurd happ (by simp)
    · split at happ
      · exact absurd happ (by simp)
      · split at happ
        · exact absurd happ (by simp)
        · split at happ
          · exact absurd happ (by simp)
          · split at happ
            · exact absurd happ (by simp)
            · rename_i b hb
              split at happ
              · exact absurd happ (by simp)
              · split at happ
                · exact absurd happ (by simp)
                · split at happ
                  · exact absurd happ (by simp)
                  · split at happ
                    · exact absurd happ (by simp)
                    · split at happ
                      · exact absurd happ (by simp)
                      · rename_i nb hnb
                        have hnb2 := checkedSubI128_some hnb
                        split at happ
                        · exact absurd happ (by simp)
                        · rename_i hclamp
                          split at happ
                          · exact absurd happ (by simp)
                          · rename_i pair s1 rid hstore
                            obtain ⟨hsb, hsf⟩ :=
                              emergency_store_record_fields s s1 _ _ _ _ _ _ _ _ _ _ hstore
                            rw [Res.ok.injEq] at happ
                            subst happ
                            obtain ⟨h1, h2⟩ := hinv b hb
                            constructor
                            · intro bb hbb
                              rw [Option.some.injEq] at hbb
                              subst hbb
                              simp only
                              omega
                            · exact hsf


/-- One successful, amount-disciplined operation preserves the bond
invariant and the fee-bps bound. -/
theorem step_preserves (s u : ContractState) (op : Op)
    (hinv : bondInv s) (hcfg : cfgInv s) (hok : amountsOk s op)
    (happ : applyOp s op = .ok u) : bondInv u ∧ cfgInv u := by
  have h : bondInv u ∧ u.feeBps = s.feeBps := by
    cases op with
    | create identity amount duration is_rolling notice_period now =>
        exact create_preserves s u identity amount duration is_rolling
          notice_period now hcfg happ
    | topUp amount => exact top_up_preserves s u amount hinv happ
    | withdraw amount now =>
        exact withdraw_bond_preserves s u amount now hinv happ
    | withdrawEarly amount now =>
        exact withdraw_early_preserves s u amount now hinv happ
    | requestCooldown requester amount now =>
        exact request_cooldown_preserves s u requester amount now hinv happ
    | executeCooldown requester now =>
        exact execute_cooldown_preserves s u requester now hinv happ
    | cancelCooldownOp requester =>
        exact cancel_cooldown_preserves s u requester hinv happ
    | slashOp admin amount =>
        exact slash_preserves s u admin amount hinv hok happ
    | unslashOp admin amount =>
        exact unslash_preserves s u admin amount hinv hok.1 hok.2 happ
    | emergency admin governance amount reason now =>
        exact emergency_withdraw_preserves s u admin governance amount
          reason now hinv happ
  refine ⟨h.1, ?_⟩
  unfold cfgInv
  unfold cfgInv at hcfg
  rw [h.2]
  exact hcfg

/-- C1 amended: along every sequence of successful operations (create,
top-up, withdraw, withdraw-early, cooldown request / execute / cancel,
slash, unslash, emergency withdraw) in which every slash amount is
non-negative and every unslash amount is at most the recorded
`slashed_amount`, the bond satisfies
`0 <= slashed_amount <= bonded_amount` after each operation (given the
configured creation-fee bps stay within the documented bound). -/
theorem C1_slashed_within_bounds_reachable (s t : ContractState)
    (hinv : bondInv s) (hcfg : cfgInv s) (hr : ReachableOk s t) :
    bondInv t ∧ cfgInv t := by
  induction hr with
  | refl => exact ⟨hinv, hcfg⟩
  | step h hok happ ih => exact step_preserves _ _ _ ih.1 ih.2 hok happ

/-- Concrete state for the C1 counterexample: a bond of 40 with nothing
slashed, satisfying the invariant. -/
def c1State : ContractState :=
  { initState 1 with bond := some (simpleBond 40 0) }

/-- C1 counterexample: a single direct slash with the negative amount -6
(accepted by the code, which never validates the sign) completes
successfully and leaves `slashed_amount = -6 < 0`, violating the claimed
invariant `0 <= slashed_amount` after an operation of the listed set. -/
theorem C1_counterexample_negative_slash :
    okSlashed (Res.ok c1State) = some 0 ∧
    okBonded (Res.ok c1State) = some 40 ∧
    okSlashed (applyOp c1State (Op.slashOp 1 (-6))) = some (-6) ∧
    ((-6 : Int) < 0) := by decide

/-- Concrete start state for the C1 witness. -/
def c1WitState : ContractState :=
  { initState 1 with bond := some (simpleBond 60 0) }

/-- State reached from `c1WitState` by a direct slash of 5. -/
def c1WitResult : ContractState :=
  { c1WitState with bond := some (simpleBond 60 5) }

/-- C1 witness: the invariant theorem applied to a concrete reachable
pair: the initial state and the state after one slash of 5. -/
theorem C1_slashed_within_bounds_reachable_witness :
    bondInv c1WitState ∧ cfgInv c1WitState ∧
    bondInv c1WitResult ∧ cfgInv c1WitResult := by
  have h1 : bondInv c1WitState := by
    intro b hb
    injection hb with h
    subst h
    exact ⟨by decide, by decide⟩
  have hc : cfgInv c1WitState := by
    unfold cfgInv
    decide
  have hok : amountsOk c1WitState (Op.slashOp 1 5) := by
    unfold amountsOk
    decide
  have happ : applyOp c1WitState (Op.slashOp 1 5) = Res.ok c1WitResult := by
    decide
  have hr : ReachableOk c1WitState c1WitResult :=
    @ReachableOk.step c1WitState c1WitState c1WitResult (Op.slashOp 1 5)
      (ReachableOk.refl c1WitState) hok happ
  have hmain := C1_slashed_within_bounds_reachable c1WitState c1WitResult
    h1 hc hr
  exact ⟨h1, hc, hmain.1, hmain.2⟩

end Credence

